import Mathlib

/-!
# POWERLINK frame codec: shallow embedding and verification

This development embeds the frame data model of `src/FrameStructure.h`
(the POWERLINK message-type enumeration `eMsgType` and the packed frame
structures `tSocFrame`, `tPreqFrame`, `tPresFrame`, `tFrameData`,
`tPlkFrame`) and the encode/decode/classify operations those structures
imply.  The header file is purely declarative: it contains the byte
layouts (with explicit offset comments) but no executable encode or
decode routine, so the codec operations themselves are modelled from the
specification (spec sections 4.1 to 4.3, 6 and 7), faithful to the
declared struct layouts.

Bytes are modelled as natural numbers; a wire buffer is a `List Nat`.
Multi-byte fields use explicit little-endian (protocol-internal fields,
suffix `Le` in the source) or big-endian (`etherType`) serialisation.
-/

namespace FrameCodec

/-- Message type tags, from `eMsgType` in `src/FrameStructure.h`
(values 0x00, 0x01, 0x03, 0x04, 0x05, 0x06, 0x07, 0x0D). -/
inductive MsgType where
  | NonPowerlink
  | Soc
  | Preq
  | Pres
  | Soa
  | Asnd
  | Amni
  | AInv
  deriving DecidableEq, Repr

/-- The numeric tag of each message type, from `eMsgType`. -/
def msgTypeCode : MsgType → Nat
  | .NonPowerlink => 0x00
  | .Soc => 0x01
  | .Preq => 0x03
  | .Pres => 0x04
  | .Soa => 0x05
  | .Asnd => 0x06
  | .Amni => 0x07
  | .AInv => 0x0D

/-- Modelled from the spec: `classify(byte) -> MessageType|Unrecognized`
(spec section 4.1); the source only declares the `eMsgType` value set.
Every byte value outside the declared tag set maps to the
`NonPowerlink` sentinel (spec section 3 invariant). -/
def classify (b : Nat) : MsgType :=
  if b = 0x01 then .Soc
  else if b = 0x03 then .Preq
  else if b = 0x04 then .Pres
  else if b = 0x05 then .Soa
  else if b = 0x06 then .Asnd
  else if b = 0x07 then .Amni
  else if b = 0x0D then .AInv
  else .NonPowerlink

/-- Modelled from the spec: the Soc optional time fields (`netTimeLe`,
`relativeTimeLe` in `tSocFrame`) are "optional, if configuration flag
set"; the spec directs that presence is a codec configuration
parameter, not a self-describing field (spec section 9). -/
structure SocConfig where
  hasNetTime : Bool
  hasRelativeTime : Bool
  deriving DecidableEq, Repr

/-- `tSocFrame` from `src/FrameStructure.h`: reserved (offset 17),
flag1 (18), flag2 (19), `netTimeLe` (20, 8 bytes little-endian,
optional), `relativeTimeLe` (UINT64 little-endian, optional).
`tNetTime` is not defined in the source file; its width of 8 bytes is
fixed by the source's own offset comments (offset 20 to offset 28). -/
structure tSocFrame where
  reserved1 : Nat
  flag1 : Nat
  flag2 : Nat
  netTimeLe : Nat
  relativeTimeLe : Nat
  deriving DecidableEq, Repr

/-- `tPreqFrame` from `src/FrameStructure.h`: reserved (offset 17),
flag1 (18), flag2 (19), pdoVersion (20), reserved (21), `sizeLe`
(22, UINT16 little-endian), payload (24, up to 256 octets).  The
payload is a byte list; the declared size `sizeLe` is its length. -/
structure tPreqFrame where
  reserved1 : Nat
  flag1 : Nat
  flag2 : Nat
  pdoVersion : Nat
  reserved2 : Nat
  aPayload : List Nat
  deriving DecidableEq, Repr

/-- `tPresFrame` from `src/FrameStructure.h`: nmtStatus (offset 17),
flag1 (18), flag2 (19), pdoVersion (20), reserved (21), `sizeLe`
(22, UINT16 little-endian), payload (24, up to 256 octets). -/
structure tPresFrame where
  nmtStatus : Nat
  flag1 : Nat
  flag2 : Nat
  pdoVersion : Nat
  reserved2 : Nat
  aPayload : List Nat
  deriving DecidableEq, Repr

/-- `tFrameData` from `src/FrameStructure.h`, as the tagged sum the
spec prescribes (section 9).  The `soa`/`asnd` members of the source
union have no layout in the source or the spec; together with
non-POWERLINK traffic they are represented by `other`, which carries
the raw message-type byte. -/
inductive tFrameData where
  | soc (s : tSocFrame)
  | preq (p : tPreqFrame)
  | pres (p : tPresFrame)
  | other (code : Nat)
  deriving DecidableEq, Repr

/-- The wire value of the `messageType` field (offset 14 of
`tPlkFrame`) for each data variant. -/
def messageTypeByte : tFrameData → Nat
  | .soc _ => 0x01
  | .preq _ => 0x03
  | .pres _ => 0x04
  | .other c => c

/-- `tPlkFrame` from `src/FrameStructure.h`: destination MAC
(offset 0, 6 bytes), source MAC (6, 6 bytes), `etherType` (12, UINT16
big-endian), `messageType` (14), `dstNodeId` (15), `srcNodeId` (16),
variant data (17).  The source's `messageType` field is determined by
the data variant (`messageTypeByte`), per the tagged-sum representation
the spec prescribes (section 9). -/
structure tPlkFrame where
  aDstMac : List Nat
  aSrcMac : List Nat
  etherType : Nat
  dstNodeId : Nat
  srcNodeId : Nat
  data : tFrameData
  deriving DecidableEq, Repr

/-- Modelled from the spec: encoder error taxonomy (spec sections 4.2
and 7). -/
inductive EncodeError where
  | PayloadTooLarge
  | UnsupportedVariant
  deriving DecidableEq, Repr

/-- Modelled from the spec: decoder error taxonomy (spec sections 4.3
and 7). -/
inductive DecodeError where
  | TruncatedHeader
  | TruncatedBody
  | PayloadSizeMismatch
  deriving DecidableEq, Repr

/-- `w`-byte little-endian serialisation of a natural number. -/
def toLe : Nat → Nat → List Nat
  | 0, _ => []
  | w + 1, v => v % 256 :: toLe w (v / 256)

/-- Little-endian recombination of a byte list. -/
def fromLe : List Nat → Nat
  | [] => 0
  | b :: bs => b + 256 * fromLe bs

/-- Wire length of an optional 8-byte Soc time field: 8 bytes when the
configuration enables it, 0 when it is absent. -/
def optLen (b : Bool) : Nat := if b then 8 else 0

/-- Serialisation of an optional 8-byte little-endian Soc time field. -/
def writeOpt (b : Bool) (v : Nat) : List Nat := if b then toLe 8 v else []

/-- Read of an optional 8-byte little-endian Soc time field at offset
`off` of the variant tail; absent fields read as 0. -/
def readOpt (b : Bool) (off : Nat) (tail : List Nat) : Nat :=
  if b then fromLe ((tail.drop off).take 8) else 0

@[simp] theorem optLen_false : optLen false = 0 := rfl

@[simp] theorem optLen_true : optLen true = 8 := rfl

@[simp] theorem writeOpt_false (v : Nat) : writeOpt false v = [] := rfl

@[simp] theorem writeOpt_true (v : Nat) : writeOpt true v = toLe 8 v := rfl

@[simp] theorem readOpt_false (off : Nat) (tail : List Nat) :
    readOpt false off tail = 0 := rfl

@[simp] theorem readOpt_true (off : Nat) (tail : List Nat) :
    readOpt true off tail = fromLe ((tail.drop off).take 8) := rfl

/-- Modelled from the spec: serialisation of the variant part
(offsets 17 and up) of each frame variant, per the layouts of
`tSocFrame`, `tPreqFrame`, `tPresFrame` and spec sections 3, 4.2
and 6.  Soc optional time fields are emitted per the configuration;
reserved fields the caller supplies are written as given.  A payload
longer than the 256-octet capacity of `aPayload` fails with
`PayloadTooLarge`; a variant with no known layout fails with
`UnsupportedVariant` (spec section 4.2). -/
def encodeData (cfg : SocConfig) : tFrameData → Except EncodeError (List Nat)
  | .soc s =>
      .ok ([s.reserved1, s.flag1, s.flag2]
        ++ writeOpt cfg.hasNetTime s.netTimeLe
        ++ writeOpt cfg.hasRelativeTime s.relativeTimeLe)
  | .preq p =>
      if p.aPayload.length ≤ 256 then
        .ok ([p.reserved1, p.flag1, p.flag2, p.pdoVersion, p.reserved2]
          ++ toLe 2 p.aPayload.length ++ p.aPayload)
      else .error .PayloadTooLarge
  | .pres p =>
      if p.aPayload.length ≤ 256 then
        .ok ([p.nmtStatus, p.flag1, p.flag2, p.pdoVersion, p.reserved2]
          ++ toLe 2 p.aPayload.length ++ p.aPayload)
      else .error .PayloadTooLarge
  | .other _ => .error .UnsupportedVariant

/-- Modelled from the spec: the frame encoder (spec section 4.2).
Emits the 17-byte header of `tPlkFrame` (MACs, big-endian `etherType`,
message type, node ids) followed by the variant bytes. -/
def encode (cfg : SocConfig) (f : tPlkFrame) : Except EncodeError (List Nat) :=
  (encodeData cfg f.data).map fun body =>
    f.aDstMac ++ f.aSrcMac
      ++ [f.etherType / 256, f.etherType % 256,
          messageTypeByte f.data, f.dstNodeId, f.srcNodeId]
      ++ body

/-- The byte length of the variant part (fixed fields plus payload)
each data variant occupies on the wire. -/
def variantLen (cfg : SocConfig) : tFrameData → Nat
  | .soc _ =>
      3 + (optLen cfg.hasNetTime + optLen cfg.hasRelativeTime)
  | .preq p => 7 + p.aPayload.length
  | .pres p => 7 + p.aPayload.length
  | .other _ => 0

/-- Modelled from the spec: parser for the Soc variant part
(spec sections 4.3 and 6, layout of `tSocFrame`).  Input is the buffer
from offset 17 on; output is the variant data and the count of variant
bytes consumed.  Time fields absent per the configuration read as 0. -/
def parseSoc (cfg : SocConfig) : List Nat → Except DecodeError (tFrameData × Nat)
  | r1 :: fl1 :: fl2 :: tail =>
    if optLen cfg.hasNetTime + optLen cfg.hasRelativeTime ≤ tail.length then
      .ok (.soc ⟨r1, fl1, fl2,
            readOpt cfg.hasNetTime 0 tail,
            readOpt cfg.hasRelativeTime (optLen cfg.hasNetTime) tail⟩,
           3 + (optLen cfg.hasNetTime + optLen cfg.hasRelativeTime))
    else .error .TruncatedBody
  | _ => .error .TruncatedBody

/-- Modelled from the spec: parser for the shared Preq/Pres variant
layout (spec sections 4.3 and 6; `tPreqFrame` and `tPresFrame` have
identical field offsets).  Input is the buffer from offset 17 on;
output is the five fixed bytes, the payload (exactly the declared
number of bytes, bounds-checked before the copy) and the count of
variant bytes consumed. -/
def parsePoll : List Nat →
    Except DecodeError ((Nat × Nat × Nat × Nat × Nat × List Nat) × Nat)
  | r1 :: fl1 :: fl2 :: pv :: r2 :: sz0 :: sz1 :: tail =>
    if sz0 + 256 * sz1 ≤ 256 ∧ sz0 + 256 * sz1 ≤ tail.length then
      .ok ((r1, fl1, fl2, pv, r2, tail.take (sz0 + 256 * sz1)),
           7 + (sz0 + 256 * sz1))
    else .error .PayloadSizeMismatch
  | _ => .error .TruncatedBody

/-- Modelled from the spec: dispatch on the classified message type
(spec section 4.3 step 2).  `code` is the raw message-type byte;
message types with no layout in the source decode to the `other`
sentinel, consuming no variant bytes (spec section 7:
unrecognized-but-well-formed input is not an error). -/
def parseData (cfg : SocConfig) (code : Nat) (rest : List Nat) :
    Except DecodeError (tFrameData × Nat) :=
  match classify code with
  | .Soc => parseSoc cfg rest
  | .Preq =>
      (parsePoll rest).map fun x =>
        (.preq ⟨x.1.1, x.1.2.1, x.1.2.2.1, x.1.2.2.2.1, x.1.2.2.2.2.1,
                x.1.2.2.2.2.2⟩, x.2)
  | .Pres =>
      (parsePoll rest).map fun x =>
        (.pres ⟨x.1.1, x.1.2.1, x.1.2.2.1, x.1.2.2.2.1, x.1.2.2.2.2.1,
                x.1.2.2.2.2.2⟩, x.2)
  | _ => .ok (.other code, 0)

/-- Modelled from the spec: the frame decoder (spec section 4.3).
Requires 17 header bytes (else `TruncatedHeader`), classifies the
message-type byte at offset 14, parses the variant part from offset 17,
and returns the frame together with the count of bytes consumed;
trailing bytes beyond the declared payload are ignored.  Every read is
realised by pattern matching and length-guarded `take`, so no byte
beyond the supplied buffer is ever accessed. -/
def decode (cfg : SocConfig) : List Nat → Except DecodeError (tPlkFrame × Nat)
  | d0 :: d1 :: d2 :: d3 :: d4 :: d5 ::
    s0 :: s1 :: s2 :: s3 :: s4 :: s5 ::
    e0 :: e1 :: mt :: dn :: sn :: rest =>
    (parseData cfg mt rest).map fun x =>
      (⟨[d0, d1, d2, d3, d4, d5], [s0, s1, s2, s3, s4, s5],
        e0 * 256 + e1, dn, sn, x.1⟩, 17 + x.2)
  | _ => .error .TruncatedHeader

/-- Validity of a data variant: all byte fields in range, time values
within 64 bits, payloads within the 256-octet capacity with byte
entries, Soc time fields zero when the configuration omits them, and a
variant the codec supports. -/
def ValidData (cfg : SocConfig) : tFrameData → Prop
  | .soc s =>
      s.reserved1 < 256 ∧ s.flag1 < 256 ∧ s.flag2 < 256
        ∧ s.netTimeLe < 2 ^ 64 ∧ s.relativeTimeLe < 2 ^ 64
        ∧ (cfg.hasNetTime = false → s.netTimeLe = 0)
        ∧ (cfg.hasRelativeTime = false → s.relativeTimeLe = 0)
  | .preq p =>
      p.reserved1 < 256 ∧ p.flag1 < 256 ∧ p.flag2 < 256
        ∧ p.pdoVersion < 256 ∧ p.reserved2 < 256
        ∧ p.aPayload.length ≤ 256 ∧ ∀ b ∈ p.aPayload, b < 256
  | .pres p =>
      p.nmtStatus < 256 ∧ p.flag1 < 256 ∧ p.flag2 < 256
        ∧ p.pdoVersion < 256 ∧ p.reserved2 < 256
        ∧ p.aPayload.length ≤ 256 ∧ ∀ b ∈ p.aPayload, b < 256
  | .other _ => False

instance (cfg : SocConfig) (d : tFrameData) : Decidable (ValidData cfg d) := by
  cases d <;> simp only [ValidData] <;> infer_instance

/-- Validity of a whole frame: MAC addresses of 6 bytes each, 16-bit
Ethernet type, byte node ids, and a valid data variant. -/
def ValidFrame (cfg : SocConfig) (f : tPlkFrame) : Prop :=
  f.aDstMac.length = 6 ∧ (∀ b ∈ f.aDstMac, b < 256)
    ∧ f.aSrcMac.length = 6 ∧ (∀ b ∈ f.aSrcMac, b < 256)
    ∧ f.etherType < 2 ^ 16 ∧ f.dstNodeId < 256 ∧ f.srcNodeId < 256
    ∧ ValidData cfg f.data

instance (cfg : SocConfig) (f : tPlkFrame) : Decidable (ValidFrame cfg f) := by
  unfold ValidFrame; infer_instance

/-! ## Basic serialisation lemmas -/

theorem toLe_length (w v : Nat) : (toLe w v).length = w := by
  induction w generalizing v with
  | zero => rfl
  | succ w ih => simp [toLe, ih]

theorem fromLe_toLe (w v : Nat) (h : v < 256 ^ w) : fromLe (toLe w v) = v := by
  induction w generalizing v with
  | zero =>
      simp [Nat.pow_zero, Nat.lt_one_iff] at h
      simp [toLe, fromLe, h]
  | succ w ih =>
      have hdiv : v / 256 < 256 ^ w := by
        rw [Nat.div_lt_iff_lt_mul (by norm_num)]
        calc v < 256 ^ (w + 1) := h
        _ = 256 ^ w * 256 := by ring
      simp [toLe, fromLe, ih (v / 256) hdiv, Nat.mod_add_div]

@[simp] theorem writeOpt_length (b : Bool) (v : Nat) :
    (writeOpt b v).length = optLen b := by
  cases b <;> simp [toLe_length]

theorem readOpt_append (b : Bool) (off : Nat) (tail ext : List Nat)
    (h : b = true → off + 8 ≤ tail.length) :
    readOpt b off (tail ++ ext) = readOpt b off tail := by
  cases b
  · rfl
  · have h8 := h rfl
    simp only [readOpt_true]
    rw [List.drop_append_of_le_length (by omega),
      List.take_append_of_le_length (by simp only [List.length_drop]; omega)]

/-! ## Shape lemmas -/

theorem exists_list6 (l : List Nat) (h : l.length = 6) :
    ∃ a b c d e f, l = [a, b, c, d, e, f] := by
  rcases l with _ | ⟨a, l⟩; · simp only [List.length_nil] at h; omega
  rcases l with _ | ⟨b, l⟩; · simp only [List.length_cons, List.length_nil] at h; omega
  rcases l with _ | ⟨c, l⟩; · simp only [List.length_cons, List.length_nil] at h; omega
  rcases l with _ | ⟨d, l⟩; · simp only [List.length_cons, List.length_nil] at h; omega
  rcases l with _ | ⟨e, l⟩; · simp only [List.length_cons, List.length_nil] at h; omega
  rcases l with _ | ⟨f, l⟩; · simp only [List.length_cons, List.length_nil] at h; omega
  rcases l with _ | ⟨g, l⟩
  · exact ⟨a, b, c, d, e, f, rfl⟩
  · simp only [List.length_cons] at h; omega

theorem decode_short (cfg : SocConfig) (buf : List Nat) (h : buf.length < 17) :
    decode cfg buf = .error .TruncatedHeader := by
  rcases buf with _ | ⟨b0, buf⟩; · rfl
  rcases buf with _ | ⟨b1, buf⟩; · rfl
  rcases buf with _ | ⟨b2, buf⟩; · rfl
  rcases buf with _ | ⟨b3, buf⟩; · rfl
  rcases buf with _ | ⟨b4, buf⟩; · rfl
  rcases buf with _ | ⟨b5, buf⟩; · rfl
  rcases buf with _ | ⟨b6, buf⟩; · rfl
  rcases buf with _ | ⟨b7, buf⟩; · rfl
  rcases buf with _ | ⟨b8, buf⟩; · rfl
  rcases buf with _ | ⟨b9, buf⟩; · rfl
  rcases buf with _ | ⟨b10, buf⟩; · rfl
  rcases buf with _ | ⟨b11, buf⟩; · rfl
  rcases buf with _ | ⟨b12, buf⟩; · rfl
  rcases buf with _ | ⟨b13, buf⟩; · rfl
  rcases buf with _ | ⟨b14, buf⟩; · rfl
  rcases buf with _ | ⟨b15, buf⟩; · rfl
  rcases buf with _ | ⟨b16, buf⟩; · rfl
  simp only [List.length_cons] at h; omega

theorem decode_ok_shape (cfg : SocConfig) (buf : List Nat) (f : tPlkFrame)
    (n : Nat) (h : decode cfg buf = .ok (f, n)) :
    ∃ b0 b1 b2 b3 b4 b5 b6 b7 b8 b9 b10 b11 b12 b13 b14 b15 b16 rest,
      buf = b0 :: b1 :: b2 :: b3 :: b4 :: b5 :: b6 :: b7 :: b8 :: b9 ::
        b10 :: b11 :: b12 :: b13 :: b14 :: b15 :: b16 :: rest := by
  rcases buf with _ | ⟨b0, buf⟩; · simp [decode] at h
  rcases buf with _ | ⟨b1, buf⟩; · simp [decode] at h
  rcases buf with _ | ⟨b2, buf⟩; · simp [decode] at h
  rcases buf with _ | ⟨b3, buf⟩; · simp [decode] at h
  rcases buf with _ | ⟨b4, buf⟩; · simp [decode] at h
  rcases buf with _ | ⟨b5, buf⟩; · simp [decode] at h
  rcases buf with _ | ⟨b6, buf⟩; · simp [decode] at h
  rcases buf with _ | ⟨b7, buf⟩; · simp [decode] at h
  rcases buf with _ | ⟨b8, buf⟩; · simp [decode] at h
  rcases buf with _ | ⟨b9, buf⟩; · simp [decode] at h
  rcases buf with _ | ⟨b10, buf⟩; · simp [decode] at h
  rcases buf with _ | ⟨b11, buf⟩; · simp [decode] at h
  rcases buf with _ | ⟨b12, buf⟩; · simp [decode] at h
  rcases buf with _ | ⟨b13, buf⟩; · simp [decode] at h
  rcases buf with _ | ⟨b14, buf⟩; · simp [decode] at h
  rcases buf with _ | ⟨b15, buf⟩; · simp [decode] at h
  rcases buf with _ | ⟨b16, buf⟩; · simp [decode] at h
  exact ⟨b0, b1, b2, b3, b4, b5, b6, b7, b8, b9, b10, b11, b12, b13, b14,
    b15, b16, buf, rfl⟩

/-! ## Consumed-byte bounds -/

theorem parseSoc_consumed (cfg : SocConfig) (rest : List Nat)
    (d : tFrameData) (m : Nat) (h : parseSoc cfg rest = .ok (d, m)) :
    m ≤ rest.length := by
  rcases rest with _ | ⟨r1, rest⟩; · simp [parseSoc] at h
  rcases rest with _ | ⟨fl1, rest⟩; · simp [parseSoc] at h
  rcases rest with _ | ⟨fl2, rest⟩; · simp [parseSoc] at h
  rw [parseSoc] at h
  split_ifs at h <;>
    (try simp only [Except.ok.injEq, Prod.mk.injEq] at h) <;>
    first
      | (obtain ⟨-, rfl⟩ := h
         simp only [List.length_cons]
         omega)
      | simp at h

theorem parsePoll_consumed (rest : List Nat)
    (x : Nat × Nat × Nat × Nat × Nat × List Nat) (m : Nat)
    (h : parsePoll rest = .ok (x, m)) : m ≤ rest.length := by
  rcases rest with _ | ⟨r1, rest⟩; · simp [parsePoll] at h
  rcases rest with _ | ⟨fl1, rest⟩; · simp [parsePoll] at h
  rcases rest with _ | ⟨fl2, rest⟩; · simp [parsePoll] at h
  rcases rest with _ | ⟨pv, rest⟩; · simp [parsePoll] at h
  rcases rest with _ | ⟨r2, rest⟩; · simp [parsePoll] at h
  rcases rest with _ | ⟨sz0, rest⟩; · simp [parsePoll] at h
  rcases rest with _ | ⟨sz1, rest⟩; · simp [parsePoll] at h
  rw [parsePoll] at h
  split_ifs at h <;>
    (try simp only [Except.ok.injEq, Prod.mk.injEq] at h) <;>
    first
      | (obtain ⟨-, rfl⟩ := h
         simp only [List.length_cons]
         omega)
      | simp at h

theorem parseData_consumed (cfg : SocConfig) (code : Nat) (rest : List Nat)
    (d : tFrameData) (m : Nat) (h : parseData cfg code rest = .ok (d, m)) :
    m ≤ rest.length := by
  unfold parseData at h
  cases hc : classify code <;> rw [hc] at h
  case Soc => exact parseSoc_consumed cfg rest d m h
  case Preq =>
    cases hp : parsePoll rest with
    | error e => rw [hp] at h; simp [Except.map] at h
    | ok y =>
        rw [hp] at h
        simp only [Except.map, Except.ok.injEq, Prod.mk.injEq] at h
        exact h.2 ▸ parsePoll_consumed rest y.1 y.2 (by rw [hp])
  case Pres =>
    cases hp : parsePoll rest with
    | error e => rw [hp] at h; simp [Except.map] at h
    | ok y =>
        rw [hp] at h
        simp only [Except.map, Except.ok.injEq, Prod.mk.injEq] at h
        exact h.2 ▸ parsePoll_consumed rest y.1 y.2 (by rw [hp])
  all_goals simp only [Except.ok.injEq, Prod.mk.injEq] at h
  all_goals omega

/-! ## Trailing bytes beyond the consumed prefix are ignored -/

theorem parseSoc_append (cfg : SocConfig) (rest ext : List Nat)
    (d : tFrameData) (m : Nat) (h : parseSoc cfg rest = .ok (d, m)) :
    parseSoc cfg (rest ++ ext) = .ok (d, m) := by
  rcases rest with _ | ⟨r1, rest⟩; · simp [parseSoc] at h
  rcases rest with _ | ⟨fl1, rest⟩; · simp [parseSoc] at h
  rcases rest with _ | ⟨fl2, rest⟩; · simp [parseSoc] at h
  simp only [List.cons_append]
  rw [parseSoc] at h ⊢
  split_ifs at h with hc
  · have hnt : cfg.hasNetTime = true → 0 + 8 ≤ rest.length := by
      intro hb; rw [hb] at hc; simp only [optLen_true] at hc; omega
    have hrt : cfg.hasRelativeTime = true →
        optLen cfg.hasNetTime + 8 ≤ rest.length := by
      intro hb; rw [hb] at hc; simp only [optLen_true] at hc
      have : optLen cfg.hasNetTime ≤ 8 := by
        cases hb2 : cfg.hasNetTime <;> simp [optLen]
      omega
    rw [if_pos (by simp only [List.length_append]; omega)]
    rw [readOpt_append _ _ _ _ hnt, readOpt_append _ _ _ _ hrt]
    exact h

theorem parsePoll_append (rest ext : List Nat)
    (x : Nat × Nat × Nat × Nat × Nat × List Nat) (m : Nat)
    (h : parsePoll rest = .ok (x, m)) :
    parsePoll (rest ++ ext) = .ok (x, m) := by
  rcases rest with _ | ⟨r1, rest⟩; · simp [parsePoll] at h
  rcases rest with _ | ⟨fl1, rest⟩; · simp [parsePoll] at h
  rcases rest with _ | ⟨fl2, rest⟩; · simp [parsePoll] at h
  rcases rest with _ | ⟨pv, rest⟩; · simp [parsePoll] at h
  rcases rest with _ | ⟨r2, rest⟩; · simp [parsePoll] at h
  rcases rest with _ | ⟨sz0, rest⟩; · simp [parsePoll] at h
  rcases rest with _ | ⟨sz1, rest⟩; · simp [parsePoll] at h
  simp only [List.cons_append]
  rw [parsePoll] at h ⊢
  split_ifs at h with hc
  · rw [if_pos ⟨hc.1, by simp only [List.length_append]; omega⟩]
    rwa [List.take_append_of_le_length hc.2]

theorem parseData_append (cfg : SocConfig) (code : Nat) (rest ext : List Nat)
    (d : tFrameData) (m : Nat) (h : parseData cfg code rest = .ok (d, m)) :
    parseData cfg code (rest ++ ext) = .ok (d, m) := by
  unfold parseData at h ⊢
  cases hc : classify code <;> rw [hc] at h
  case Soc => exact parseSoc_append cfg rest ext d m h
  case Preq =>
    cases hp : parsePoll rest with
    | error e => rw [hp] at h; simp [Except.map] at h
    | ok y =>
        rw [hp] at h
        rw [parsePoll_append rest ext y.1 y.2 (by rw [hp])]
        exact h
  case Pres =>
    cases hp : parsePoll rest with
    | error e => rw [hp] at h; simp [Except.map] at h
    | ok y =>
        rw [hp] at h
        rw [parsePoll_append rest ext y.1 y.2 (by rw [hp])]
        exact h
  all_goals exact h

/-! ## Parsing an encoded variant body recovers the variant -/

theorem toLe_two (v : Nat) : toLe 2 v = [v % 256, v / 256 % 256] := rfl

theorem parseData_soc (cfg : SocConfig) (rest : List Nat) :
    parseData cfg 0x01 rest = parseSoc cfg rest := rfl

theorem parseData_preq (cfg : SocConfig) (rest : List Nat) :
    parseData cfg 0x03 rest = (parsePoll rest).map (fun x =>
      (.preq ⟨x.1.1, x.1.2.1, x.1.2.2.1, x.1.2.2.2.1, x.1.2.2.2.2.1,
              x.1.2.2.2.2.2⟩, x.2)) := rfl

theorem parseData_pres (cfg : SocConfig) (rest : List Nat) :
    parseData cfg 0x04 rest = (parsePoll rest).map (fun x =>
      (.pres ⟨x.1.1, x.1.2.1, x.1.2.2.1, x.1.2.2.2.1, x.1.2.2.2.2.1,
              x.1.2.2.2.2.2⟩, x.2)) := rfl

theorem parseSoc_encode (cfg : SocConfig) (s : tSocFrame)
    (hnt : s.netTimeLe < 2 ^ 64) (hrt : s.relativeTimeLe < 2 ^ 64)
    (hz1 : cfg.hasNetTime = false → s.netTimeLe = 0)
    (hz2 : cfg.hasRelativeTime = false → s.relativeTimeLe = 0) :
    parseSoc cfg (s.reserved1 :: s.flag1 :: s.flag2 ::
        (writeOpt cfg.hasNetTime s.netTimeLe
          ++ writeOpt cfg.hasRelativeTime s.relativeTimeLe))
      = .ok (.soc s,
          3 + (optLen cfg.hasNetTime + optLen cfg.hasRelativeTime)) := by
  obtain ⟨r1v, f1v, f2v, ntv, rtv⟩ := s
  obtain ⟨nt, rt⟩ := cfg
  simp only at hnt hrt hz1 hz2
  cases nt <;> cases rt
  · rw [hz1 rfl, hz2 rfl]
    rfl
  · rw [hz1 rfl]
    simp only [writeOpt_false, writeOpt_true, List.nil_append]
    rw [parseSoc]
    rw [if_pos (by simp [toLe_length])]
    simp only [readOpt_false, readOpt_true, optLen_false, List.drop_zero]
    rw [List.take_of_length_le (le_of_eq (toLe_length 8 rtv)),
      fromLe_toLe 8 rtv hrt]
  · rw [hz2 rfl]
    simp only [writeOpt_false, writeOpt_true, List.append_nil]
    rw [parseSoc]
    rw [if_pos (by simp [toLe_length])]
    simp only [readOpt_false, readOpt_true, List.drop_zero]
    rw [List.take_of_length_le (le_of_eq (toLe_length 8 ntv)),
      fromLe_toLe 8 ntv hnt]
  · simp only [writeOpt_true]
    rw [parseSoc]
    rw [if_pos (by simp [List.length_append, toLe_length])]
    simp only [readOpt_true, List.drop_zero, optLen_true]
    rw [List.take_left' (toLe_length 8 ntv), fromLe_toLe 8 ntv hnt,
      List.drop_left' (toLe_length 8 ntv),
      List.take_of_length_le (le_of_eq (toLe_length 8 rtv)),
      fromLe_toLe 8 rtv hrt]

theorem parsePoll_encode (r1 f1 f2 pv r2 : Nat) (pl : List Nat)
    (hpl : pl.length ≤ 256) :
    parsePoll (r1 :: f1 :: f2 :: pv :: r2 :: (toLe 2 pl.length ++ pl))
      = .ok ((r1, f1, f2, pv, r2, pl), 7 + pl.length) := by
  have hsz : pl.length % 256 + 256 * (pl.length / 256 % 256) = pl.length := by
    omega
  simp only [toLe_two, List.cons_append, List.nil_append]
  rw [parsePoll, hsz]
  rw [if_pos ⟨hpl, le_refl _⟩]
  rw [List.take_length]

theorem encodeData_length (cfg : SocConfig) (d : tFrameData) (body : List Nat)
    (h : encodeData cfg d = .ok body) : body.length = variantLen cfg d := by
  cases d with
  | soc s =>
      simp only [encodeData, Except.ok.injEq] at h
      subst h
      simp only [variantLen, List.length_append, List.length_cons,
        List.length_nil, writeOpt_length]
      omega
  | preq p =>
      simp only [encodeData] at h
      split_ifs at h with hc
      simp only [Except.ok.injEq] at h
      subst h
      simp only [variantLen, List.length_append, List.length_cons,
        List.length_nil, toLe_length]
  | pres p =>
      simp only [encodeData] at h
      split_ifs at h with hc
      simp only [Except.ok.injEq] at h
      subst h
      simp only [variantLen, List.length_append, List.length_cons,
        List.length_nil, toLe_length]
  | other c => simp [encodeData] at h

theorem decode_append (cfg : SocConfig) (buf ext : List Nat) (f : tPlkFrame)
    (n : Nat) (h : decode cfg buf = .ok (f, n)) :
    decode cfg (buf ++ ext) = .ok (f, n) := by
  obtain ⟨b0, b1, b2, b3, b4, b5, b6, b7, b8, b9, b10, b11, b12, b13, b14,
    b15, b16, rest, rfl⟩ := decode_ok_shape cfg buf f n h
  simp only [List.cons_append]
  rw [decode] at h ⊢
  cases hp : parseData cfg b14 rest with
  | error e => rw [hp] at h; simp [Except.map] at h
  | ok y =>
      rw [hp] at h
      rw [parseData_append cfg b14 rest ext y.1 y.2 (by rw [hp])]
      exact h

/-! ## Round-trip -/

theorem encode_soc_eq (cfg : SocConfig) (d0 d1 d2 d3 d4 d5 s0 s1 s2 s3 s4 s5
    et dn sn : Nat) (s : tSocFrame) :
    encode cfg ⟨[d0, d1, d2, d3, d4, d5], [s0, s1, s2, s3, s4, s5],
        et, dn, sn, .soc s⟩
      = .ok ([d0, d1, d2, d3, d4, d5] ++ [s0, s1, s2, s3, s4, s5]
          ++ [et / 256, et % 256, 0x01, dn, sn]
          ++ (s.reserved1 :: s.flag1 :: s.flag2 ::
              (writeOpt cfg.hasNetTime s.netTimeLe
                ++ writeOpt cfg.hasRelativeTime s.relativeTimeLe))) := rfl

theorem encode_preq_eq (cfg : SocConfig) (d0 d1 d2 d3 d4 d5 s0 s1 s2 s3 s4 s5
    et dn sn : Nat) (p : tPreqFrame) (hp : p.aPayload.length ≤ 256) :
    encode cfg ⟨[d0, d1, d2, d3, d4, d5], [s0, s1, s2, s3, s4, s5],
        et, dn, sn, .preq p⟩
      = .ok ([d0, d1, d2, d3, d4, d5] ++ [s0, s1, s2, s3, s4, s5]
          ++ [et / 256, et % 256, 0x03, dn, sn]
          ++ (p.reserved1 :: p.flag1 :: p.flag2 :: p.pdoVersion ::
              p.reserved2 :: (toLe 2 p.aPayload.length ++ p.aPayload))) := by
  simp only [encode, encodeData, messageTypeByte]
  rw [if_pos hp]
  rfl

theorem encode_pres_eq (cfg : SocConfig) (d0 d1 d2 d3 d4 d5 s0 s1 s2 s3 s4 s5
    et dn sn : Nat) (p : tPresFrame) (hp : p.aPayload.length ≤ 256) :
    encode cfg ⟨[d0, d1, d2, d3, d4, d5], [s0, s1, s2, s3, s4, s5],
        et, dn, sn, .pres p⟩
      = .ok ([d0, d1, d2, d3, d4, d5] ++ [s0, s1, s2, s3, s4, s5]
          ++ [et / 256, et % 256, 0x04, dn, sn]
          ++ (p.nmtStatus :: p.flag1 :: p.flag2 :: p.pdoVersion ::
              p.reserved2 :: (toLe 2 p.aPayload.length ++ p.aPayload))) := by
  simp only [encode, encodeData, messageTypeByte]
  rw [if_pos hp]
  rfl

theorem roundtrip_soc (cfg : SocConfig) (d0 d1 d2 d3 d4 d5 s0 s1 s2 s3 s4 s5
    et dn sn : Nat) (s : tSocFrame)
    (hnt : s.netTimeLe < 2 ^ 64) (hrt : s.relativeTimeLe < 2 ^ 64)
    (hz1 : cfg.hasNetTime = false → s.netTimeLe = 0)
    (hz2 : cfg.hasRelativeTime = false → s.relativeTimeLe = 0) :
    decode cfg ([d0, d1, d2, d3, d4, d5] ++ [s0, s1, s2, s3, s4, s5]
        ++ [et / 256, et % 256, 0x01, dn, sn]
        ++ (s.reserved1 :: s.flag1 :: s.flag2 ::
            (writeOpt cfg.hasNetTime s.netTimeLe
              ++ writeOpt cfg.hasRelativeTime s.relativeTimeLe)))
      = .ok (⟨[d0, d1, d2, d3, d4, d5], [s0, s1, s2, s3, s4, s5],
          et, dn, sn, .soc s⟩,
          20 + (optLen cfg.hasNetTime + optLen cfg.hasRelativeTime)) := by
  simp only [List.cons_append, List.nil_append]
  rw [decode, parseData_soc, parseSoc_encode cfg s hnt hrt hz1 hz2]
  simp only [Except.map]
  rw [Nat.div_add_mod']
  simp only [Except.ok.injEq, Prod.mk.injEq]
  exact ⟨trivial, by omega⟩

theorem roundtrip_preq (cfg : SocConfig) (d0 d1 d2 d3 d4 d5 s0 s1 s2 s3 s4 s5
    et dn sn : Nat) (p : tPreqFrame) (hp : p.aPayload.length ≤ 256) :
    decode cfg ([d0, d1, d2, d3, d4, d5] ++ [s0, s1, s2, s3, s4, s5]
        ++ [et / 256, et % 256, 0x03, dn, sn]
        ++ (p.reserved1 :: p.flag1 :: p.flag2 :: p.pdoVersion ::
            p.reserved2 :: (toLe 2 p.aPayload.length ++ p.aPayload)))
      = .ok (⟨[d0, d1, d2, d3, d4, d5], [s0, s1, s2, s3, s4, s5],
          et, dn, sn, .preq p⟩, 24 + p.aPayload.length) := by
  simp only [List.cons_append, List.nil_append]
  rw [decode, parseData_preq,
    parsePoll_encode p.reserved1 p.flag1 p.flag2 p.pdoVersion p.reserved2
      p.aPayload hp]
  simp only [Except.map]
  rw [Nat.div_add_mod']
  simp only [Except.ok.injEq, Prod.mk.injEq]
  exact ⟨trivial, by omega⟩

theorem roundtrip_pres (cfg : SocConfig) (d0 d1 d2 d3 d4 d5 s0 s1 s2 s3 s4 s5
    et dn sn : Nat) (p : tPresFrame) (hp : p.aPayload.length ≤ 256) :
    decode cfg ([d0, d1, d2, d3, d4, d5] ++ [s0, s1, s2, s3, s4, s5]
        ++ [et / 256, et % 256, 0x04, dn, sn]
        ++ (p.nmtStatus :: p.flag1 :: p.flag2 :: p.pdoVersion ::
            p.reserved2 :: (toLe 2 p.aPayload.length ++ p.aPayload)))
      = .ok (⟨[d0, d1, d2, d3, d4, d5], [s0, s1, s2, s3, s4, s5],
          et, dn, sn, .pres p⟩, 24 + p.aPayload.length) := by
  simp only [List.cons_append, List.nil_append]
  rw [decode, parseData_pres,
    parsePoll_encode p.nmtStatus p.flag1 p.flag2 p.pdoVersion p.reserved2
      p.aPayload hp]
  simp only [Except.map]
  rw [Nat.div_add_mod']
  simp only [Except.ok.injEq, Prod.mk.injEq]
  exact ⟨trivial, by omega⟩

theorem encode_length (cfg : SocConfig) (f : tPlkFrame) (bytes : List Nat)
    (hd6 : f.aDstMac.length = 6) (hs6 : f.aSrcMac.length = 6)
    (henc : encode cfg f = .ok bytes) :
    bytes.length = 17 + variantLen cfg f.data := by
  unfold encode at henc
  cases hb : encodeData cfg f.data with
  | error e => rw [hb] at henc; simp [Except.map] at henc
  | ok body =>
      rw [hb] at henc
      simp only [Except.map, Except.ok.injEq] at henc
      subst henc
      simp only [List.length_append, List.length_cons, List.length_nil,
        hd6, hs6]
      rw [encodeData_length cfg f.data body hb]

theorem encodeData_preq_le (cfg : SocConfig) (p : tPreqFrame)
    (body : List Nat) (h : encodeData cfg (.preq p) = .ok body) :
    p.aPayload.length ≤ 256 := by
  simp only [encodeData] at h
  split_ifs at h with hc
  exact hc

theorem encodeData_pres_le (cfg : SocConfig) (p : tPresFrame)
    (body : List Nat) (h : encodeData cfg (.pres p) = .ok body) :
    p.aPayload.length ≤ 256 := by
  simp only [encodeData] at h
  split_ifs at h with hc
  exact hc

/-! ## Claim theorems -/

/-- **C1.** For every supported frame variant (Soc, Preq, Pres) and every
valid combination of field values within the declared ranges (payload
size at most 256, all fields in range), decoding the byte sequence
produced by `encode` yields a frame equal to the original:
`decode (encode f) = ok (f, _)`. -/
theorem decode_encode_roundtrip (cfg : SocConfig) (f : tPlkFrame)
    (h : ValidFrame cfg f) :
    ∃ bytes, encode cfg f = .ok bytes
      ∧ decode cfg bytes = .ok (f, bytes.length) := by
  obtain ⟨dst, srcm, et, dn, sn, data⟩ := f
  unfold ValidFrame at h
  obtain ⟨hd6, -, hs6, -, -, -, -, hdata⟩ := h
  obtain ⟨d0, d1, d2, d3, d4, d5, rfl⟩ := exists_list6 dst hd6
  obtain ⟨s0, s1, s2, s3, s4, s5, rfl⟩ := exists_list6 srcm hs6
  cases data with
  | soc s =>
      simp only [ValidData] at hdata
      obtain ⟨-, -, -, hnt, hrt, hz1, hz2⟩ := hdata
      refine ⟨_, encode_soc_eq cfg d0 d1 d2 d3 d4 d5 s0 s1 s2 s3 s4 s5
        et dn sn s, ?_⟩
      rw [roundtrip_soc cfg d0 d1 d2 d3 d4 d5 s0 s1 s2 s3 s4 s5 et dn sn s
        hnt hrt hz1 hz2]
      simp only [List.length_append, List.length_cons, List.length_nil,
        writeOpt_length, Except.ok.injEq, Prod.mk.injEq]
      exact ⟨trivial, by omega⟩
  | preq p =>
      simp only [ValidData] at hdata
      obtain ⟨-, -, -, -, -, hp6, -⟩ := hdata
      refine ⟨_, encode_preq_eq cfg d0 d1 d2 d3 d4 d5 s0 s1 s2 s3 s4 s5
        et dn sn p hp6, ?_⟩
      rw [roundtrip_preq cfg d0 d1 d2 d3 d4 d5 s0 s1 s2 s3 s4 s5 et dn sn p
        hp6]
      simp only [List.length_append, List.length_cons, List.length_nil,
        toLe_length, Except.ok.injEq, Prod.mk.injEq]
      exact ⟨trivial, by omega⟩
  | pres p =>
      simp only [ValidData] at hdata
      obtain ⟨-, -, -, -, -, hp6, -⟩ := hdata
      refine ⟨_, encode_pres_eq cfg d0 d1 d2 d3 d4 d5 s0 s1 s2 s3 s4 s5
        et dn sn p hp6, ?_⟩
      rw [roundtrip_pres cfg d0 d1 d2 d3 d4 d5 s0 s1 s2 s3 s4 s5 et dn sn p
        hp6]
      simp only [List.length_append, List.length_cons, List.length_nil,
        toLe_length, Except.ok.injEq, Prod.mk.injEq]
      exact ⟨trivial, by omega⟩
  | other c =>
      simp only [ValidData] at hdata

/-- Witness for C1 at a concrete valid Preq frame. -/
theorem decode_encode_roundtrip_witness :
    ∃ bytes,
      encode ⟨true, true⟩ ⟨[1, 2, 3, 4, 5, 6], [7, 8, 9, 10, 11, 12],
        0x88AB, 42, 1, .preq ⟨0, 5, 0, 2, 0, [222, 173, 190, 239]⟩⟩
        = .ok bytes
      ∧ decode ⟨true, true⟩ bytes
        = .ok (⟨[1, 2, 3, 4, 5, 6], [7, 8, 9, 10, 11, 12],
            0x88AB, 42, 1, .preq ⟨0, 5, 0, 2, 0, [222, 173, 190, 239]⟩⟩,
           bytes.length) :=
  decode_encode_roundtrip ⟨true, true⟩
    ⟨[1, 2, 3, 4, 5, 6], [7, 8, 9, 10, 11, 12], 0x88AB, 42, 1,
     .preq ⟨0, 5, 0, 2, 0, [222, 173, 190, 239]⟩⟩ (by decide)

/-- **C2.** Encoding a Soc frame with relativeTime = 1000000 and all
reserved and flag bytes zero (network time absent per the codec
configuration, relative time present, per spec sections 6, 8 and 9)
produces exactly a 28-byte frame, i.e. the 17-byte header plus 11 bytes
of Soc fixed fields occupying offsets 17 through 27, and bytes 20
through 27 of that frame are the little-endian representation of
1000000; decoding that frame recovers relativeTime = 1000000. -/
theorem soc_relative_time_scenario :
    encode ⟨false, true⟩ ⟨[1, 2, 3, 4, 5, 6], [7, 8, 9, 10, 11, 12],
        0x88AB, 255, 1, .soc ⟨0, 0, 0, 0, 1000000⟩⟩
      = .ok [1, 2, 3, 4, 5, 6, 7, 8, 9, 10, 11, 12, 0x88, 0xAB, 1, 255, 1,
          0, 0, 0, 64, 66, 15, 0, 0, 0, 0, 0]
    ∧ ([1, 2, 3, 4, 5, 6, 7, 8, 9, 10, 11, 12, 0x88, 0xAB, 1, 255, 1,
          0, 0, 0, 64, 66, 15, 0, 0, 0, 0, 0] : List Nat).length = 28
    ∧ List.drop 20 [1, 2, 3, 4, 5, 6, 7, 8, 9, 10, 11, 12, 0x88, 0xAB, 1,
          255, 1, 0, 0, 0, 64, 66, 15, 0, 0, 0, 0, 0]
        = toLe 8 1000000
    ∧ toLe 8 1000000 = [64, 66, 15, 0, 0, 0, 0, 0]
    ∧ decode ⟨false, true⟩ [1, 2, 3, 4, 5, 6, 7, 8, 9, 10, 11, 12, 0x88,
          0xAB, 1, 255, 1, 0, 0, 0, 64, 66, 15, 0, 0, 0, 0, 0]
      = .ok (⟨[1, 2, 3, 4, 5, 6], [7, 8, 9, 10, 11, 12], 0x88AB, 255, 1,
          .soc ⟨0, 0, 0, 0, 1000000⟩⟩, 28) :=
  ⟨rfl, rfl, rfl, rfl, rfl⟩

/-- **C4.** `classify` is a total pure function defined for all byte
values: it maps 0x00 to NonPowerlink, 0x01 to Soc, 0x03 to Preq, 0x04 to
Pres, 0x05 to Soa, 0x06 to Asnd, 0x07 to Amni, 0x0D to AInv, and every
other byte value to the NonPowerlink sentinel; being a Lean function
into `MsgType` it never fails and never yields an undefined variant. -/
theorem classify_total :
    classify 0x00 = .NonPowerlink ∧ classify 0x01 = .Soc
    ∧ classify 0x03 = .Preq ∧ classify 0x04 = .Pres
    ∧ classify 0x05 = .Soa ∧ classify 0x06 = .Asnd
    ∧ classify 0x07 = .Amni ∧ classify 0x0D = .AInv
    ∧ ∀ b : Nat, b ≠ 0x01 → b ≠ 0x03 → b ≠ 0x04 → b ≠ 0x05 → b ≠ 0x06 →
        b ≠ 0x07 → b ≠ 0x0D → classify b = .NonPowerlink := by
  refine ⟨rfl, rfl, rfl, rfl, rfl, rfl, rfl, rfl, ?_⟩
  intro b h1 h3 h4 h5 h6 h7 hd
  simp [classify, h1, h3, h4, h5, h6, h7, hd]

/-- Witness for C4 at the unassigned byte value 0x0B. -/
theorem classify_total_witness : classify 0x0B = .NonPowerlink :=
  classify_total.2.2.2.2.2.2.2.2 0x0B (by decide) (by decide) (by decide)
    (by decide) (by decide) (by decide) (by decide)

/-- **C5.** For every frame the encoder accepts, the destination MAC is
at offsets 0 to 5, the source MAC at offsets 6 to 11, the Ethernet type
big-endian at offsets 12 to 13, the message type at offset 14, the
destination node id at offset 15, the source node id at offset 16, and
the variant body from offset 17 on, with no padding between fields: the
total length is exactly 17 plus the variant's fixed-plus-payload
length. -/
theorem encode_header_layout (cfg : SocConfig) (f : tPlkFrame)
    (bytes : List Nat) (hd6 : f.aDstMac.length = 6)
    (hs6 : f.aSrcMac.length = 6) (henc : encode cfg f = .ok bytes) :
    bytes.take 6 = f.aDstMac
    ∧ (bytes.drop 6).take 6 = f.aSrcMac
    ∧ bytes.getD 12 0 = f.etherType / 256
    ∧ bytes.getD 13 0 = f.etherType % 256
    ∧ bytes.getD 14 0 = messageTypeByte f.data
    ∧ bytes.getD 15 0 = f.dstNodeId
    ∧ bytes.getD 16 0 = f.srcNodeId
    ∧ (∃ body, encodeData cfg f.data = .ok body ∧ bytes.drop 17 = body)
    ∧ bytes.length = 17 + variantLen cfg f.data := by
  have hlen := encode_length cfg f bytes hd6 hs6 henc
  obtain ⟨dst, srcm, et, dn, sn, data⟩ := f
  obtain ⟨d0, d1, d2, d3, d4, d5, rfl⟩ := exists_list6 dst hd6
  obtain ⟨s0, s1, s2, s3, s4, s5, rfl⟩ := exists_list6 srcm hs6
  unfold encode at henc
  cases hb : encodeData cfg data with
  | error e => rw [hb] at henc; simp [Except.map] at henc
  | ok body =>
      rw [hb] at henc
      simp only [Except.map, Except.ok.injEq] at henc
      subst henc
      simp only [List.cons_append, List.nil_append] at hlen ⊢
      exact ⟨rfl, rfl, rfl, rfl, rfl, rfl, rfl, ⟨body, rfl, rfl⟩, hlen⟩

/-- Witness for C5 at a concrete Soc frame with no optional fields. -/
theorem encode_header_layout_witness :
    ([1, 2, 3, 4, 5, 6, 7, 8, 9, 10, 11, 12, 0x88, 0xAB, 1, 255, 1,
        0, 0, 0] : List Nat).take 6 = [1, 2, 3, 4, 5, 6]
    ∧ (([1, 2, 3, 4, 5, 6, 7, 8, 9, 10, 11, 12, 0x88, 0xAB, 1, 255, 1,
        0, 0, 0] : List Nat).drop 6).take 6 = [7, 8, 9, 10, 11, 12]
    ∧ ([1, 2, 3, 4, 5, 6, 7, 8, 9, 10, 11, 12, 0x88, 0xAB, 1, 255, 1,
        0, 0, 0] : List Nat).getD 12 0 = 0x88AB / 256
    ∧ ([1, 2, 3, 4, 5, 6, 7, 8, 9, 10, 11, 12, 0x88, 0xAB, 1, 255, 1,
        0, 0, 0] : List Nat).getD 13 0 = 0x88AB % 256
    ∧ ([1, 2, 3, 4, 5, 6, 7, 8, 9, 10, 11, 12, 0x88, 0xAB, 1, 255, 1,
        0, 0, 0] : List Nat).getD 14 0
        = messageTypeByte (.soc ⟨0, 0, 0, 0, 0⟩)
    ∧ ([1, 2, 3, 4, 5, 6, 7, 8, 9, 10, 11, 12, 0x88, 0xAB, 1, 255, 1,
        0, 0, 0] : List Nat).getD 15 0 = 255
    ∧ ([1, 2, 3, 4, 5, 6, 7, 8, 9, 10, 11, 12, 0x88, 0xAB, 1, 255, 1,
        0, 0, 0] : List Nat).getD 16 0 = 1
    ∧ (∃ body, encodeData ⟨false, false⟩ (.soc ⟨0, 0, 0, 0, 0⟩) = .ok body
        ∧ ([1, 2, 3, 4, 5, 6, 7, 8, 9, 10, 11, 12, 0x88, 0xAB, 1, 255, 1,
            0, 0, 0] : List Nat).drop 17 = body)
    ∧ ([1, 2, 3, 4, 5, 6, 7, 8, 9, 10, 11, 12, 0x88, 0xAB, 1, 255, 1,
        0, 0, 0] : List Nat).length
        = 17 + variantLen ⟨false, false⟩ (.soc ⟨0, 0, 0, 0, 0⟩) :=
  encode_header_layout ⟨false, false⟩
    ⟨[1, 2, 3, 4, 5, 6], [7, 8, 9, 10, 11, 12], 0x88AB, 255, 1,
     .soc ⟨0, 0, 0, 0, 0⟩⟩
    [1, 2, 3, 4, 5, 6, 7, 8, 9, 10, 11, 12, 0x88, 0xAB, 1, 255, 1, 0, 0, 0]
    rfl rfl rfl

/-- **C6.** For every Preq and Pres frame, the variant fixed fields
occupy offsets 17 to 23, the payload-size field is little-endian at
offsets 22 to 23 (so size 0x0102 serialises as the byte sequence
02 01), the payload begins at offset 24 and holds at most 256 bytes;
the Ethernet type field conversely round-trips as big-endian. -/
theorem poll_field_layout (cfg : SocConfig)
    (d0 d1 d2 d3 d4 d5 s0 s1 s2 s3 s4 s5 et dn sn r1 fl1 fl2 pv r2 : Nat)
    (pl : List Nat) (hpl : pl.length ≤ 256) :
    (∀ bytes,
      encode cfg ⟨[d0, d1, d2, d3, d4, d5], [s0, s1, s2, s3, s4, s5],
          et, dn, sn, .preq ⟨r1, fl1, fl2, pv, r2, pl⟩⟩ = .ok bytes →
        bytes.getD 17 0 = r1 ∧ bytes.getD 18 0 = fl1
        ∧ bytes.getD 19 0 = fl2 ∧ bytes.getD 20 0 = pv
        ∧ bytes.getD 21 0 = r2
        ∧ bytes.getD 22 0 = pl.length % 256
        ∧ bytes.getD 23 0 = pl.length / 256
        ∧ bytes.drop 24 = pl
        ∧ bytes.getD 12 0 = et / 256 ∧ bytes.getD 13 0 = et % 256
        ∧ bytes.getD 12 0 * 256 + bytes.getD 13 0 = et)
    ∧ (∀ bytes,
      encode cfg ⟨[d0, d1, d2, d3, d4, d5], [s0, s1, s2, s3, s4, s5],
          et, dn, sn, .pres ⟨r1, fl1, fl2, pv, r2, pl⟩⟩ = .ok bytes →
        bytes.getD 17 0 = r1 ∧ bytes.getD 18 0 = fl1
        ∧ bytes.getD 19 0 = fl2 ∧ bytes.getD 20 0 = pv
        ∧ bytes.getD 21 0 = r2
        ∧ bytes.getD 22 0 = pl.length % 256
        ∧ bytes.getD 23 0 = pl.length / 256
        ∧ bytes.drop 24 = pl
        ∧ bytes.getD 12 0 = et / 256 ∧ bytes.getD 13 0 = et % 256
        ∧ bytes.getD 12 0 * 256 + bytes.getD 13 0 = et)
    ∧ toLe 2 0x0102 = [0x02, 0x01] := by
  refine ⟨?_, ?_, rfl⟩ <;> intro bytes henc
  · rw [encode_preq_eq cfg d0 d1 d2 d3 d4 d5 s0 s1 s2 s3 s4 s5 et dn sn
      ⟨r1, fl1, fl2, pv, r2, pl⟩ hpl] at henc
    simp only [Except.ok.injEq] at henc
    subst henc
    simp only [toLe_two, List.cons_append, List.nil_append]
    exact ⟨rfl, rfl, rfl, rfl, rfl, rfl,
      show pl.length / 256 % 256 = pl.length / 256 by omega,
      rfl, rfl, rfl,
      show et / 256 * 256 + et % 256 = et by omega⟩
  · rw [encode_pres_eq cfg d0 d1 d2 d3 d4 d5 s0 s1 s2 s3 s4 s5 et dn sn
      ⟨r1, fl1, fl2, pv, r2, pl⟩ hpl] at henc
    simp only [Except.ok.injEq] at henc
    subst henc
    simp only [toLe_two, List.cons_append, List.nil_append]
    exact ⟨rfl, rfl, rfl, rfl, rfl, rfl,
      show pl.length / 256 % 256 = pl.length / 256 by omega,
      rfl, rfl, rfl,
      show et / 256 * 256 + et % 256 = et by omega⟩

/-- Witness for C6: the little-endian size serialisation fact at a
concrete instantiation. -/
theorem poll_field_layout_witness : toLe 2 0x0102 = [0x02, 0x01] :=
  (poll_field_layout ⟨true, true⟩ 1 2 3 4 5 6 7 8 9 10 11 12 0x88AB 42 1
    0 0 0 2 0 [222, 173] (by decide)).2.2

/-- **C7.** Encoding a Preq or Pres frame whose payload exceeds 256
octets fails with `PayloadTooLarge`, and decoding a buffer whose
declared little-endian size field (offsets 22-23) exceeds 256 fails
with `PayloadSizeMismatch`; in both cases the result is an error, so no
usable frame or byte output is produced. -/
theorem payload_capacity_errors :
    (∀ (cfg : SocConfig) (f : tPlkFrame) (p : tPreqFrame),
      f.data = .preq p → 256 < p.aPayload.length →
      encode cfg f = .error .PayloadTooLarge)
    ∧ (∀ (cfg : SocConfig) (f : tPlkFrame) (p : tPresFrame),
      f.data = .pres p → 256 < p.aPayload.length →
      encode cfg f = .error .PayloadTooLarge)
    ∧ (∀ (cfg : SocConfig) (d0 d1 d2 d3 d4 d5 s0 s1 s2 s3 s4 s5 e0 e1 mt dn
          sn b17 b18 b19 b20 b21 sz0 sz1 : Nat) (tail : List Nat),
      (mt = 0x03 ∨ mt = 0x04) → 256 < sz0 + 256 * sz1 →
      decode cfg (d0 :: d1 :: d2 :: d3 :: d4 :: d5 :: s0 :: s1 :: s2 :: s3 ::
          s4 :: s5 :: e0 :: e1 :: mt :: dn :: sn :: b17 :: b18 :: b19 ::
          b20 :: b21 :: sz0 :: sz1 :: tail)
        = .error .PayloadSizeMismatch) := by
  refine ⟨?_, ?_, ?_⟩
  · intro cfg f p hf hlen
    unfold encode
    rw [hf]
    simp only [encodeData]
    rw [if_neg (by omega)]
    rfl
  · intro cfg f p hf hlen
    unfold encode
    rw [hf]
    simp only [encodeData]
    rw [if_neg (by omega)]
    rfl
  · intro cfg d0 d1 d2 d3 d4 d5 s0 s1 s2 s3 s4 s5 e0 e1 mt dn sn b17 b18
      b19 b20 b21 sz0 sz1 tail hmt hsz
    rw [decode]
    rcases hmt with rfl | rfl
    · rw [parseData_preq, parsePoll]
      rw [if_neg (by rintro ⟨h1, -⟩; omega)]
      rfl
    · rw [parseData_pres, parsePoll]
      rw [if_neg (by rintro ⟨h1, -⟩; omega)]
      rfl

/-- Witness for C7: a Preq frame with a 257-octet payload is rejected
by the encoder. -/
theorem payload_capacity_errors_witness :
    encode ⟨true, true⟩ ⟨[1, 2, 3, 4, 5, 6], [7, 8, 9, 10, 11, 12],
        0x88AB, 42, 1, .preq ⟨0, 0, 0, 0, 0, List.replicate 257 0⟩⟩
      = .error .PayloadTooLarge :=
  payload_capacity_errors.1 ⟨true, true⟩ _ ⟨0, 0, 0, 0, 0,
    List.replicate 257 0⟩ rfl (by rw [List.length_replicate]; omega)

/-- **C10.** For every Preq or Pres frame the encoder accepts, the
encoded length is exactly 24 plus the payload length, hence at most
280 bytes (17 header + 7 fixed + at most 256 payload); the length is
determined by the message type and the declared size alone. -/
theorem poll_encoded_length (cfg : SocConfig) (f : tPlkFrame)
    (bytes : List Nat) (hd6 : f.aDstMac.length = 6)
    (hs6 : f.aSrcMac.length = 6) (henc : encode cfg f = .ok bytes) :
    (∀ p : tPreqFrame, f.data = .preq p →
      bytes.length = 24 + p.aPayload.length ∧ bytes.length ≤ 280)
    ∧ (∀ p : tPresFrame, f.data = .pres p →
      bytes.length = 24 + p.aPayload.length ∧ bytes.length ≤ 280) := by
  have hlen := encode_length cfg f bytes hd6 hs6 henc
  constructor
  · intro p hp
    rw [hp] at hlen
    simp only [variantLen] at hlen
    have hle : p.aPayload.length ≤ 256 := by
      unfold encode at henc
      rw [hp] at henc
      cases hb : encodeData cfg (.preq p) with
      | error e => rw [hb] at henc; simp [Except.map] at henc
      | ok body => exact encodeData_preq_le cfg p body hb
    omega
  · intro p hp
    rw [hp] at hlen
    simp only [variantLen] at hlen
    have hle : p.aPayload.length ≤ 256 := by
      unfold encode at henc
      rw [hp] at henc
      cases hb : encodeData cfg (.pres p) with
      | error e => rw [hb] at henc; simp [Except.map] at henc
      | ok body => exact encodeData_pres_le cfg p body hb
    omega

/-- Witness for C10 at a concrete 4-octet Preq frame. -/
theorem poll_encoded_length_witness :
    ([1, 2, 3, 4, 5, 6, 7, 8, 9, 10, 11, 12, 0x88, 0xAB, 3, 42, 1,
        0, 0, 0, 2, 0, 4, 0, 222, 173, 190, 239] : List Nat).length
      = 24 + ([222, 173, 190, 239] : List Nat).length
    ∧ ([1, 2, 3, 4, 5, 6, 7, 8, 9, 10, 11, 12, 0x88, 0xAB, 3, 42, 1,
        0, 0, 0, 2, 0, 4, 0, 222, 173, 190, 239] : List Nat).length ≤ 280 :=
  (poll_encoded_length ⟨true, true⟩
    ⟨[1, 2, 3, 4, 5, 6], [7, 8, 9, 10, 11, 12], 0x88AB, 42, 1,
     .preq ⟨0, 0, 0, 2, 0, [222, 173, 190, 239]⟩⟩
    [1, 2, 3, 4, 5, 6, 7, 8, 9, 10, 11, 12, 0x88, 0xAB, 3, 42, 1,
     0, 0, 0, 2, 0, 4, 0, 222, 173, 190, 239]
    rfl rfl rfl).1 ⟨0, 0, 0, 2, 0, [222, 173, 190, 239]⟩ rfl

/-- **C3.** Decode of a buffer shorter than 17 bytes fails with
`TruncatedHeader`; on success the count of consumed bytes never exceeds
the buffer length; and when the declared size field at offsets 22-23 of
a Preq/Pres buffer claims more payload bytes than the buffer contains,
decode fails with `PayloadSizeMismatch` instead of reading past the
end.  (Every read in `decode` is realised by pattern matching and
bounds-guarded `take`, so no access beyond the supplied buffer exists;
see also the trailing-bytes theorem for C8.) -/
theorem decode_bounds (cfg : SocConfig) (buf : List Nat) :
    (buf.length < 17 → decode cfg buf = .error .TruncatedHeader)
    ∧ (∀ (f : tPlkFrame) (n : Nat),
        decode cfg buf = .ok (f, n) → n ≤ buf.length)
    ∧ (∀ (d0 d1 d2 d3 d4 d5 s0 s1 s2 s3 s4 s5 e0 e1 mt dn sn b17 b18 b19
          b20 b21 sz0 sz1 : Nat) (tail : List Nat),
        buf = d0 :: d1 :: d2 :: d3 :: d4 :: d5 :: s0 :: s1 :: s2 :: s3 ::
          s4 :: s5 :: e0 :: e1 :: mt :: dn :: sn :: b17 :: b18 :: b19 ::
          b20 :: b21 :: sz0 :: sz1 :: tail →
        (mt = 0x03 ∨ mt = 0x04) →
        tail.length < sz0 + 256 * sz1 →
        decode cfg buf = .error .PayloadSizeMismatch) := by
  refine ⟨decode_short cfg buf, ?_, ?_⟩
  · intro f n h
    obtain ⟨b0, b1, b2, b3, b4, b5, b6, b7, b8, b9, b10, b11, b12, b13,
      b14, b15, b16, rest, rfl⟩ := decode_ok_shape cfg buf f n h
    rw [decode] at h
    cases hp : parseData cfg b14 rest with
    | error e => rw [hp] at h; simp [Except.map] at h
    | ok y =>
        rw [hp] at h
        simp only [Except.map, Except.ok.injEq, Prod.mk.injEq] at h
        obtain ⟨-, hn⟩ := h
        have hc := parseData_consumed cfg b14 rest y.1 y.2 (by rw [hp])
        simp only [List.length_cons]
        omega
  · intro d0 d1 d2 d3 d4 d5 s0 s1 s2 s3 s4 s5 e0 e1 mt dn sn b17 b18 b19
      b20 b21 sz0 sz1 tail hbuf hmt hsz
    subst hbuf
    rw [decode]
    rcases hmt with rfl | rfl
    · rw [parseData_preq, parsePoll, if_neg (by rintro ⟨-, h2⟩; omega)]
      rfl
    · rw [parseData_pres, parsePoll, if_neg (by rintro ⟨-, h2⟩; omega)]
      rfl

/-- Witness for C3: a 3-byte buffer is rejected as a truncated
header. -/
theorem decode_bounds_witness :
    decode ⟨true, true⟩ [0, 1, 2] = .error .TruncatedHeader :=
  (decode_bounds ⟨true, true⟩ [0, 1, 2]).1 (by decide)

/-- **C8.** A Preq buffer declaring 4 payload octets (DE AD BE EF)
followed by zero padding up to the 60-byte Ethernet minimum decodes
successfully, exposing exactly the 4 declared payload bytes; in
general, for every successfully decoded buffer, appending trailing
bytes never changes the result and never causes an error. -/
theorem preq_padding_tolerated :
    decode ⟨true, true⟩
        ([1, 2, 3, 4, 5, 6, 7, 8, 9, 10, 11, 12, 0x88, 0xAB, 3, 42, 1,
          0, 0, 0, 2, 0, 4, 0, 0xDE, 0xAD, 0xBE, 0xEF]
         ++ List.replicate 32 0)
      = .ok (⟨[1, 2, 3, 4, 5, 6], [7, 8, 9, 10, 11, 12], 0x88AB, 42, 1,
          .preq ⟨0, 0, 0, 2, 0, [0xDE, 0xAD, 0xBE, 0xEF]⟩⟩, 28)
    ∧ (∀ (cfg : SocConfig) (buf ext : List Nat) (f : tPlkFrame) (n : Nat),
        decode cfg buf = .ok (f, n) → decode cfg (buf ++ ext) = .ok (f, n)) := by
  constructor
  · rfl
  · exact fun cfg buf ext f n h => decode_append cfg buf ext f n h

/-- Witness for C8: appending two junk bytes to a decodable Preq buffer
leaves the decode result unchanged. -/
theorem preq_padding_tolerated_witness :
    decode ⟨true, true⟩
        ([1, 2, 3, 4, 5, 6, 7, 8, 9, 10, 11, 12, 0x88, 0xAB, 3, 42, 1,
          0, 0, 0, 2, 0, 4, 0, 0xDE, 0xAD, 0xBE, 0xEF] ++ [9, 9])
      = .ok (⟨[1, 2, 3, 4, 5, 6], [7, 8, 9, 10, 11, 12], 0x88AB, 42, 1,
          .preq ⟨0, 0, 0, 2, 0, [0xDE, 0xAD, 0xBE, 0xEF]⟩⟩, 28) :=
  preq_padding_tolerated.2 ⟨true, true⟩
    [1, 2, 3, 4, 5, 6, 7, 8, 9, 10, 11, 12, 0x88, 0xAB, 3, 42, 1,
     0, 0, 0, 2, 0, 4, 0, 0xDE, 0xAD, 0xBE, 0xEF] [9, 9]
    ⟨[1, 2, 3, 4, 5, 6], [7, 8, 9, 10, 11, 12], 0x88AB, 42, 1,
     .preq ⟨0, 0, 0, 2, 0, [0xDE, 0xAD, 0xBE, 0xEF]⟩⟩ 28 rfl

/-- **C9.** Preq and Pres have byte-identical layouts: their variant
bodies serialise identically for identical field values (hence equal
lengths for equal declared sizes), and a buffer that decodes as Preq
decodes, after switching the message-type byte from 0x03 to 0x04, as a
Pres with corresponding field values equal — and conversely. -/
theorem preq_pres_equiv :
    (∀ (cfg : SocConfig) (r1 fl1 fl2 pv r2 : Nat) (pl : List Nat),
      encodeData cfg (.preq ⟨r1, fl1, fl2, pv, r2, pl⟩)
        = encodeData cfg (.pres ⟨r1, fl1, fl2, pv, r2, pl⟩))
    ∧ (∀ (cfg : SocConfig)
        (d0 d1 d2 d3 d4 d5 s0 s1 s2 s3 s4 s5 e0 e1 dn sn : Nat)
        (rest : List Nat) (f : tPlkFrame) (n : Nat) (p : tPreqFrame),
        decode cfg (d0 :: d1 :: d2 :: d3 :: d4 :: d5 :: s0 :: s1 :: s2 ::
            s3 :: s4 :: s5 :: e0 :: e1 :: 0x03 :: dn :: sn :: rest)
          = .ok (f, n) →
        f.data = .preq p →
        decode cfg (d0 :: d1 :: d2 :: d3 :: d4 :: d5 :: s0 :: s1 :: s2 ::
            s3 :: s4 :: s5 :: e0 :: e1 :: 0x04 :: dn :: sn :: rest)
          = .ok ({f with data := .pres ⟨p.reserved1, p.flag1, p.flag2,
              p.pdoVersion, p.reserved2, p.aPayload⟩}, n))
    ∧ (∀ (cfg : SocConfig)
        (d0 d1 d2 d3 d4 d5 s0 s1 s2 s3 s4 s5 e0 e1 dn sn : Nat)
        (rest : List Nat) (f : tPlkFrame) (n : Nat) (p : tPresFrame),
        decode cfg (d0 :: d1 :: d2 :: d3 :: d4 :: d5 :: s0 :: s1 :: s2 ::
            s3 :: s4 :: s5 :: e0 :: e1 :: 0x04 :: dn :: sn :: rest)
          = .ok (f, n) →
        f.data = .pres p →
        decode cfg (d0 :: d1 :: d2 :: d3 :: d4 :: d5 :: s0 :: s1 :: s2 ::
            s3 :: s4 :: s5 :: e0 :: e1 :: 0x03 :: dn :: sn :: rest)
          = .ok ({f with data := .preq ⟨p.nmtStatus, p.flag1, p.flag2,
              p.pdoVersion, p.reserved2, p.aPayload⟩}, n)) := by
  refine ⟨fun cfg r1 fl1 fl2 pv r2 pl => rfl, ?_, ?_⟩
  · intro cfg d0 d1 d2 d3 d4 d5 s0 s1 s2 s3 s4 s5 e0 e1 dn sn rest f n p
      h hf
    rw [decode] at h ⊢
    rw [parseData_preq] at h
    rw [parseData_pres]
    cases hp : parsePoll rest with
    | error e => rw [hp] at h; simp [Except.map] at h
    | ok y =>
        rw [hp] at h
        simp only [Except.map, Except.ok.injEq, Prod.mk.injEq] at h ⊢
        obtain ⟨hfr, hn⟩ := h
        subst hn
        subst hfr
        injection hf with hf2
        subst hf2
        exact ⟨rfl, rfl⟩
  · intro cfg d0 d1 d2 d3 d4 d5 s0 s1 s2 s3 s4 s5 e0 e1 dn sn rest f n p
      h hf
    rw [decode] at h ⊢
    rw [parseData_pres] at h
    rw [parseData_preq]
    cases hp : parsePoll rest with
    | error e => rw [hp] at h; simp [Except.map] at h
    | ok y =>
        rw [hp] at h
        simp only [Except.map, Except.ok.injEq, Prod.mk.injEq] at h ⊢
        obtain ⟨hfr, hn⟩ := h
        subst hn
        subst hfr
        injection hf with hf2
        subst hf2
        exact ⟨rfl, rfl⟩

/-- Witness for C9: switching the message-type byte of a concrete Preq
buffer to 0x04 decodes the same offsets as a Pres. -/
theorem preq_pres_equiv_witness :
    decode ⟨true, true⟩
        [1, 2, 3, 4, 5, 6, 7, 8, 9, 10, 11, 12, 0x88, 0xAB, 4, 42, 1,
         0, 0, 0, 2, 0, 4, 0, 0xDE, 0xAD, 0xBE, 0xEF]
      = .ok (⟨[1, 2, 3, 4, 5, 6], [7, 8, 9, 10, 11, 12], 0x88AB, 42, 1,
          .pres ⟨0, 0, 0, 2, 0, [0xDE, 0xAD, 0xBE, 0xEF]⟩⟩, 28) :=
  preq_pres_equiv.2.1 ⟨true, true⟩ 1 2 3 4 5 6 7 8 9 10 11 12 0x88 0xAB
    42 1 [0, 0, 0, 2, 0, 4, 0, 0xDE, 0xAD, 0xBE, 0xEF]
    ⟨[1, 2, 3, 4, 5, 6], [7, 8, 9, 10, 11, 12], 0x88AB, 42, 1,
     .preq ⟨0, 0, 0, 2, 0, [0xDE, 0xAD, 0xBE, 0xEF]⟩⟩
    28 ⟨0, 0, 0, 2, 0, [0xDE, 0xAD, 0xBE, 0xEF]⟩ rfl rfl

end FrameCodec
